import Mathlib

/-!
Shallow embedding of the LiquidCrystal_PCF8574 driver
(src/LiquidCrystal_PCF8574.cpp / .h).

The driver owns a small persistent state (backlight level, entry-mode and
display-control flags, and the bit masks derived from the pin assignment)
and emits bytes to the I2C bus through the Wire library.  We model a bus
interaction as a list of events: begin-transmission, byte write,
end-transmission, and the explicit busy delays the source inserts.
Machine bytes are modelled as Nat with explicit truncation (% 256) exactly
where the C code narrows an int to uint8_t.
-/

namespace LCD

/-- One observable event on the Wire bus (or a timing delay). -/
inductive WireEv where
  | beginT : Nat → WireEv
  | write : Nat → WireEv
  | endT : WireEv
  | delayMicroseconds : Nat → WireEv
deriving DecidableEq

/-- The driver instance state: the private fields of class
LiquidCrystal_PCF8574 that the modelled code reads or writes.
(The header also declares a field rs_state, but the .cpp never uses it.) -/
structure LCDState where
  i2cAddr : Nat
  backlight : Nat
  lines : Nat
  entrymode : Nat
  displaycontrol : Nat
  rs_mask : Nat
  rw_mask : Nat
  enable_mask : Nat
  backlight_mask : Nat
  data_mask0 : Nat
  data_mask1 : Nat
  data_mask2 : Nat
  data_mask3 : Nat
deriving DecidableEq

/-- LiquidCrystal_PCF8574::init (LiquidCrystal_PCF8574.cpp lines 47-71).
Each mask is 0x01 << pin truncated to a uint8_t; positions 255 for the
optional rw and backlight signals yield mask 0.  The source leaves _lines
unassigned until begin(); we model that unknown initial value as 0. -/
def init (i2cAddr rs rw enable d4 d5 d6 d7 backlight : Nat) : LCDState :=
  { i2cAddr := i2cAddr
    backlight := 0
    lines := 0
    entrymode := 0x02
    displaycontrol := 0x04
    rs_mask := (1 <<< rs) % 256
    rw_mask := if rw ≠ 255 then (1 <<< rw) % 256 else 0
    enable_mask := (1 <<< enable) % 256
    backlight_mask := if backlight ≠ 255 then (1 <<< backlight) % 256 else 0
    data_mask0 := (1 <<< d4) % 256
    data_mask1 := (1 <<< d5) % 256
    data_mask2 := (1 <<< d6) % 256
    data_mask3 := (1 <<< d7) % 256 }

/-- The four high-nibble conditionals of _send / write(buffer,size):
OR data_mask[i] into out for each set bit 4+i of value. -/
def orHighNibble (s : LCDState) (value out : Nat) : Nat :=
  let out := if value &&& 0x10 ≠ 0 then out ||| s.data_mask0 else out
  let out := if value &&& 0x20 ≠ 0 then out ||| s.data_mask1 else out
  let out := if value &&& 0x40 ≠ 0 then out ||| s.data_mask2 else out
  if value &&& 0x80 ≠ 0 then out ||| s.data_mask3 else out

/-- The four low-nibble conditionals of _send / _sendNibble / write:
OR data_mask[i] into out for each set bit i of value. -/
def orLowNibble (s : LCDState) (value out : Nat) : Nat :=
  let out := if value &&& 0x01 ≠ 0 then out ||| s.data_mask0 else out
  let out := if value &&& 0x02 ≠ 0 then out ||| s.data_mask1 else out
  let out := if value &&& 0x04 ≠ 0 then out ||| s.data_mask2 else out
  if value &&& 0x08 ≠ 0 then out ||| s.data_mask3 else out

/-- The base byte out1 of _send (lines 338-345): backlight mask when the
stored level is positive, then the register-select mask for data bytes. -/
def sendBase (s : LCDState) (isData : Bool) : Nat :=
  let out : Nat := 0
  let out := if s.backlight > 0 then out ||| s.backlight_mask else out
  if isData then out ||| s.rs_mask else out

/-- LiquidCrystal_PCF8574::_send (lines 336-366): one instruction or data
byte becomes a single transaction of four writes, an enable pulse per
nibble, high nibble first. -/
def sendTrace (s : LCDState) (value : Nat) (isData : Bool) : List WireEv :=
  let out1 := sendBase s isData
  let outH := orHighNibble s value out1
  let outL := orLowNibble s value out1
  [WireEv.beginT s.i2cAddr,
   WireEv.write (outH ||| s.enable_mask), WireEv.write outH,
   WireEv.write (outL ||| s.enable_mask), WireEv.write outL,
   WireEv.endT]

/-- LiquidCrystal_PCF8574::_sendNibble (lines 370-390): a raw half byte
with one enable pulse, used only by the reset handshake in begin(). -/
def sendNibbleTrace (s : LCDState) (value : Nat) (isData : Bool) : List WireEv :=
  let out : Nat := 0
  let out := if isData then out ||| s.rs_mask else out
  let out := if s.backlight > 0 then out ||| s.backlight_mask else out
  let out := orLowNibble s value out
  [WireEv.beginT s.i2cAddr,
   WireEv.write (out ||| s.enable_mask), WireEv.write out,
   WireEv.endT]

/-- LiquidCrystal_PCF8574::_write2Wire (lines 394-402).  Note: the source
ignores its byte argument entirely and always writes
rs_mask OR (backlight_mask when the stored backlight level is positive). -/
def write2WireTrace (s : LCDState) (_byte : Nat) : List WireEv :=
  let out := s.rs_mask
  let out := if s.backlight > 0 then out ||| s.backlight_mask else out
  [WireEv.beginT s.i2cAddr, WireEv.write out, WireEv.endT]

/-- clear (lines 112-117). -/
def clear (s : LCDState) : LCDState × List WireEv :=
  (s, sendTrace s 0x01 false ++ [WireEv.delayMicroseconds 1600])

/-- home (lines 120-125). -/
def home (s : LCDState) : LCDState × List WireEv :=
  (s, sendTrace s 0x02 false ++ [WireEv.delayMicroseconds 1600])

/-- The local row_offsets table of setCursor (line 131). -/
def row_offsets : List Nat := [0x00, 0x40, 0x14, 0x54]

/-- setCursor (lines 129-134).  Indexing the 4-entry table with row > 3 is
undefined behavior in the C source; the model reads a default 0 there and
the theorems assume row < 4.  The sum is truncated to uint8_t when passed
to _send. -/
def setCursor (s : LCDState) (col row : Nat) : LCDState × List WireEv :=
  (s, sendTrace s ((0x80 ||| (row_offsets.getD row 0 + col)) % 256) false)

/-- noDisplay (lines 138-143). -/
def noDisplay (s : LCDState) : LCDState × List WireEv :=
  let s1 := { s with displaycontrol := s.displaycontrol &&& 0xFB }
  (s1, sendTrace s1 (0x08 ||| s1.displaycontrol) false)

/-- display (lines 146-151). -/
def display (s : LCDState) : LCDState × List WireEv :=
  let s1 := { s with displaycontrol := s.displaycontrol ||| 0x04 }
  (s1, sendTrace s1 (0x08 ||| s1.displaycontrol) false)

/-- cursor (lines 155-160). -/
def cursor (s : LCDState) : LCDState × List WireEv :=
  let s1 := { s with displaycontrol := s.displaycontrol ||| 0x02 }
  (s1, sendTrace s1 (0x08 ||| s1.displaycontrol) false)

/-- noCursor (lines 163-168). -/
def noCursor (s : LCDState) : LCDState × List WireEv :=
  let s1 := { s with displaycontrol := s.displaycontrol &&& 0xFD }
  (s1, sendTrace s1 (0x08 ||| s1.displaycontrol) false)

/-- blink (lines 172-177). -/
def blink (s : LCDState) : LCDState × List WireEv :=
  let s1 := { s with displaycontrol := s.displaycontrol ||| 0x01 }
  (s1, sendTrace s1 (0x08 ||| s1.displaycontrol) false)

/-- noBlink (lines 180-185); the C statement is displaycontrol &= ~0x01 on
a uint8_t, i.e. an AND with 0xFE. -/
def noBlink (s : LCDState) : LCDState × List WireEv :=
  let s1 := { s with displaycontrol := s.displaycontrol &&& 0xFE }
  (s1, sendTrace s1 (0x08 ||| s1.displaycontrol) false)

/-- scrollDisplayLeft (lines 189-194). -/
def scrollDisplayLeft (s : LCDState) : LCDState × List WireEv :=
  (s, sendTrace s (0x10 ||| 0x08 ||| 0x00) false)

/-- scrollDisplayRight (lines 197-202). -/
def scrollDisplayRight (s : LCDState) : LCDState × List WireEv :=
  (s, sendTrace s (0x10 ||| 0x08 ||| 0x04) false)

/-- leftToRight (lines 208-213). -/
def leftToRight (s : LCDState) : LCDState × List WireEv :=
  let s1 := { s with entrymode := s.entrymode ||| 0x02 }
  (s1, sendTrace s1 (0x04 ||| s1.entrymode) false)

/-- rightToLeft (lines 217-222); entrymode &= ~0x02 on uint8_t is AND 0xFD. -/
def rightToLeft (s : LCDState) : LCDState × List WireEv :=
  let s1 := { s with entrymode := s.entrymode &&& 0xFD }
  (s1, sendTrace s1 (0x04 ||| s1.entrymode) false)

/-- autoscroll (lines 226-231). -/
def autoscroll (s : LCDState) : LCDState × List WireEv :=
  let s1 := { s with entrymode := s.entrymode ||| 0x01 }
  (s1, sendTrace s1 (0x04 ||| s1.entrymode) false)

/-- noAutoscroll (lines 235-240); entrymode &= ~0x01 on uint8_t is AND 0xFE. -/
def noAutoscroll (s : LCDState) : LCDState × List WireEv :=
  let s1 := { s with entrymode := s.entrymode &&& 0xFE }
  (s1, sendTrace s1 (0x04 ||| s1.entrymode) false)

/-- setBacklight (lines 246-251): store the brightness, then re-latch the
expander output through _write2Wire (which reads the new level). -/
def setBacklight (s : LCDState) (brightness : Nat) : LCDState × List WireEv :=
  let s1 := { s with backlight := brightness }
  (s1, write2WireTrace s1 0x00)

/-- createChar (lines 256-264): location is masked to 0-7, the CGRAM
address command is sent, then the 8 pattern bytes as data.  The C loop
reads exactly charmap[0..7]; a shorter bitmap is undefined behavior there,
modelled by taking the first 8 list entries. -/
def createChar (s : LCDState) (location : Nat) (charmap : List Nat) :
    LCDState × List WireEv :=
  (s, sendTrace s (0x40 ||| ((location &&& 0x7) <<< 3)) false ++
      (charmap.take 8).flatMap (fun ch => sendTrace s ch true))

/-- write(uint8_t) (lines 281-285): one data byte, returns 1. -/
def writeChar (s : LCDState) (ch : Nat) : (LCDState × List WireEv) × Nat :=
  ((s, sendTrace s ch true), 1)

/-- BUFFER_LENGTH of the Arduino Wire library (Wire.h), the transport
frame bound used by write(buffer,size); 32 bytes on the reference core. -/
def BUFFER_LENGTH : Nat := 32

/-- The while loop of write(const uint8_t*, size_t) (lines 298-330).
out1 is the precomputed RS-high base byte; c counts the bytes queued in
the currently open transaction.  A transaction is opened when c = 0,
flushed once c (after the 4-byte step) reaches BUFFER_LENGTH - 4, and a
final non-empty batch is flushed after the loop. -/
def writeLoop (s : LCDState) (out1 : Nat) : List Nat → Nat → List WireEv
  | [], c => if c ≠ 0 then [WireEv.endT] else []
  | value :: rest, c =>
    let outH := orHighNibble s value out1
    let outL := orLowNibble s value out1
    (if c = 0 then [WireEv.beginT s.i2cAddr] else []) ++
      [WireEv.write (outH ||| s.enable_mask), WireEv.write outH,
       WireEv.write (outL ||| s.enable_mask), WireEv.write outL] ++
      (if BUFFER_LENGTH - 4 ≤ c + 4 then
        WireEv.endT :: writeLoop s out1 rest 0
      else
        writeLoop s out1 rest (c + 4))

/-- write(const uint8_t*, size_t) (lines 288-332): batched data write;
returns the state (unchanged), the bus trace, and the count n = size. -/
def writeBuffer (s : LCDState) (buffer : List Nat) :
    (LCDState × List WireEv) × Nat :=
  let out := s.rs_mask
  let out1 := if s.backlight > 0 then out ||| s.backlight_mask else out
  ((s, writeLoop s out1 buffer 0), buffer.length)

/-- begin (lines 74-109): the power-up reset handshake, then the first
regular instructions.  Wire.begin() itself emits no bus bytes and is not
modelled. -/
def begin (s : LCDState) (cols lines : Nat) : LCDState × List WireEv :=
  let _ := cols
  let s1 : LCDState := { s with lines := lines }
  let functionFlags : Nat := if lines > 1 then 0x08 else 0
  let t0 := write2WireTrace s1 0x00
  let s2 : LCDState := { s1 with displaycontrol := 0x04, entrymode := 0x02 }
  let t1 := sendNibbleTrace s2 0x03 false
  let t2 := sendNibbleTrace s2 0x03 false
  let t3 := sendNibbleTrace s2 0x03 false
  let t4 := sendNibbleTrace s2 0x02 false
  let t5 := sendTrace s2 (0x20 ||| functionFlags) false
  let p6 := display s2
  let p7 := clear p6.1
  let p8 := leftToRight p7.1
  (p8.1,
   t0 ++ [WireEv.delayMicroseconds 50000] ++
   t1 ++ [WireEv.delayMicroseconds 4500] ++
   t2 ++ [WireEv.delayMicroseconds 200] ++
   t3 ++ [WireEv.delayMicroseconds 200] ++
   t4 ++ t5 ++ p6.2 ++ p7.2 ++ p8.2)

/-- The data bytes of a trace, in emission order. -/
def writesOf (t : List WireEv) : List Nat :=
  t.filterMap (fun ev => match ev with
    | WireEv.write b => some b
    | _ => none)

/-- Number of completed bus transactions in a trace. -/
def countEndT (t : List WireEv) : Nat :=
  t.countP (fun ev => match ev with
    | WireEv.endT => true
    | _ => false)

/-- Sizes (in written bytes) of the completed transactions of a trace,
given the byte count already queued in the currently open transaction. -/
def txnWriteCounts : List WireEv → Nat → List Nat
  | [], _ => []
  | WireEv.beginT _ :: t, _ => txnWriteCounts t 0
  | WireEv.write _ :: t, acc => txnWriteCounts t (acc + 1)
  | WireEv.endT :: t, acc => acc :: txnWriteCounts t 0
  | WireEv.delayMicroseconds _ :: t, acc => txnWriteCounts t acc

/-- True when every byte written in the trace has all bits of mask m clear. -/
def evMaskClear (m : Nat) : WireEv → Bool := fun ev =>
  match ev with
  | WireEv.write b => b &&& m == 0
  | _ => true

/-- All written bytes of the trace avoid the bits of mask m. -/
def clearAll (m : Nat) (t : List WireEv) : Bool := t.all (evMaskClear m)

/-- The default pin assignment of the one-argument constructor (line 16):
rs=0, rw=1, enable=2, backlight=3, data=4..7; address 0x27 is a common
PCF8574 module address. -/
def defaultState : LCDState := init 0x27 0 1 2 4 5 6 7 3

/-- A construction in which rs and enable are both mapped to bit 2. -/
def conflictState : LCDState := init 0x27 2 255 2 4 5 6 7 3

/-- A reachable state in which the blink flag is already set (for example
after a prior blink() call from the power-on state). -/
def blinkOnState : LCDState := { defaultState with displaycontrol := 0x05 }

/-- The precondition of C9: the rw bit does not overlap any of the bits
assigned to the other signals (distinct pin positions give exactly this,
see C7). -/
def rwMasksDisjoint (s : LCDState) : Prop :=
  s.rs_mask &&& s.rw_mask = 0 ∧ s.enable_mask &&& s.rw_mask = 0 ∧
  s.backlight_mask &&& s.rw_mask = 0 ∧ s.data_mask0 &&& s.rw_mask = 0 ∧
  s.data_mask1 &&& s.rw_mask = 0 ∧ s.data_mask2 &&& s.rw_mask = 0 ∧
  s.data_mask3 &&& s.rw_mask = 0

/-! ## Bitwise helper lemmas -/

/-- Testing a nibble-select condition of the source against testBit. -/
theorem and_two_pow_ne_zero_iff (v i : Nat) :
    (v &&& 2 ^ i ≠ 0) ↔ v.testBit i = true := by
  rw [Nat.and_two_pow]
  cases h : v.testBit i <;> simp [h]

/-- The sequential high-nibble OR accumulation equals the one-shot
mask-per-set-bit description. -/
theorem orHighNibble_eq (s : LCDState) (v out : Nat) :
    orHighNibble s v out =
      out ||| (if v.testBit 4 then s.data_mask0 else 0)
          ||| (if v.testBit 5 then s.data_mask1 else 0)
          ||| (if v.testBit 6 then s.data_mask2 else 0)
          ||| (if v.testBit 7 then s.data_mask3 else 0) := by
  have h4 := and_two_pow_ne_zero_iff v 4
  have h5 := and_two_pow_ne_zero_iff v 5
  have h6 := and_two_pow_ne_zero_iff v 6
  have h7 := and_two_pow_ne_zero_iff v 7
  norm_num at h4 h5 h6 h7
  by_cases b4 : v.testBit 4 = true <;> by_cases b5 : v.testBit 5 = true <;>
    by_cases b6 : v.testBit 6 = true <;> by_cases b7 : v.testBit 7 = true <;>
    simp [orHighNibble, h4, h5, h6, h7, b4, b5, b6, b7]

/-- The sequential low-nibble OR accumulation equals the one-shot
mask-per-set-bit description. -/
theorem orLowNibble_eq (s : LCDState) (v out : Nat) :
    orLowNibble s v out =
      out ||| (if v.testBit 0 then s.data_mask0 else 0)
          ||| (if v.testBit 1 then s.data_mask1 else 0)
          ||| (if v.testBit 2 then s.data_mask2 else 0)
          ||| (if v.testBit 3 then s.data_mask3 else 0) := by
  have h0 : (v % 2 = 1) ↔ v.testBit 0 = true := by
    simp [Nat.testBit_zero]
  have h1 := and_two_pow_ne_zero_iff v 1
  have h2 := and_two_pow_ne_zero_iff v 2
  have h3 := and_two_pow_ne_zero_iff v 3
  norm_num at h1 h2 h3
  by_cases b0 : v.testBit 0 = true <;> by_cases b1 : v.testBit 1 = true <;>
    by_cases b2 : v.testBit 2 = true <;> by_cases b3 : v.testBit 3 = true <;>
    simp [orLowNibble, h0, h1, h2, h3, b0, b1, b2, b3]

/-- The base byte of _send written as a single OR of conditionals. -/
theorem sendBase_eq (s : LCDState) (d : Bool) :
    sendBase s d =
      (if s.backlight > 0 then s.backlight_mask else 0) |||
      (if d then s.rs_mask else 0) := by
  cases d <;> by_cases hb : s.backlight > 0 <;> simp [sendBase, hb]

/-- The difference between a byte with extra OR-ed bits and the byte
itself is contained in those extra bits. -/
theorem lor_xor_and_self (a e : Nat) :
    ((a ||| e) ^^^ a) &&& e = (a ||| e) ^^^ a := by
  apply Nat.eq_of_testBit_eq
  intro i
  simp only [Nat.testBit_land, Nat.testBit_xor, Nat.testBit_lor]
  cases ha : a.testBit i <;> cases he : e.testBit i <;> rfl

/-- The four data bytes of a _send transaction, unfolded. -/
theorem sendTrace_writes (s : LCDState) (v : Nat) (d : Bool) :
    writesOf (sendTrace s v d) =
      [orHighNibble s v (sendBase s d) ||| s.enable_mask,
       orHighNibble s v (sendBase s d),
       orLowNibble s v (sendBase s d) ||| s.enable_mask,
       orLowNibble s v (sendBase s d)] := rfl

/-! ## Claim C1 -/

/-- C1: for every 8-bit instruction value v, register-select flag isData
and stored backlight level, _send emits exactly 4 output bytes in order
(high OR enable, high, low OR enable, low), where with base carrying the
backlight mask (iff the level is positive) and the rs mask (iff isData),
high ORs in data_mask i for each set bit 4+i of v and low ORs in
data_mask i for each set bit i of v; each enable-high byte differs from
the byte that follows it only in the enable-mask bits. -/
theorem C1_send_frame (s : LCDState) (v : Nat) (isData : Bool) (hv : v < 256) :
    let base := (if s.backlight > 0 then s.backlight_mask else 0) |||
                (if isData then s.rs_mask else 0)
    let hi := base ||| (if v.testBit 4 then s.data_mask0 else 0)
                   ||| (if v.testBit 5 then s.data_mask1 else 0)
                   ||| (if v.testBit 6 then s.data_mask2 else 0)
                   ||| (if v.testBit 7 then s.data_mask3 else 0)
    let lo := base ||| (if v.testBit 0 then s.data_mask0 else 0)
                   ||| (if v.testBit 1 then s.data_mask1 else 0)
                   ||| (if v.testBit 2 then s.data_mask2 else 0)
                   ||| (if v.testBit 3 then s.data_mask3 else 0)
    writesOf (sendTrace s v isData) =
      [hi ||| s.enable_mask, hi, lo ||| s.enable_mask, lo] ∧
    ((hi ||| s.enable_mask) ^^^ hi) &&& s.enable_mask =
      (hi ||| s.enable_mask) ^^^ hi ∧
    ((lo ||| s.enable_mask) ^^^ lo) &&& s.enable_mask =
      (lo ||| s.enable_mask) ^^^ lo := by
  intro base hi lo
  have hbase : sendBase s isData = base := sendBase_eq s isData
  have hhi : orHighNibble s v (sendBase s isData) = hi := by
    rw [orHighNibble_eq, hbase]
  have hlo : orLowNibble s v (sendBase s isData) = lo := by
    rw [orLowNibble_eq, hbase]
  refine ⟨?_, lor_xor_and_self _ _, lor_xor_and_self _ _⟩
  rw [sendTrace_writes, hhi, hlo]

/-- Witness for C1 at the default pin mapping, v = 0x48 as data. -/
theorem C1_send_frame_w :
    (0x48 : Nat) < 256 ∧
    (let base := (if defaultState.backlight > 0 then defaultState.backlight_mask else 0) |||
                 (if true then defaultState.rs_mask else 0)
     let hi := base ||| (if (0x48 : Nat).testBit 4 then defaultState.data_mask0 else 0)
                    ||| (if (0x48 : Nat).testBit 5 then defaultState.data_mask1 else 0)
                    ||| (if (0x48 : Nat).testBit 6 then defaultState.data_mask2 else 0)
                    ||| (if (0x48 : Nat).testBit 7 then defaultState.data_mask3 else 0)
     let lo := base ||| (if (0x48 : Nat).testBit 0 then defaultState.data_mask0 else 0)
                    ||| (if (0x48 : Nat).testBit 1 then defaultState.data_mask1 else 0)
                    ||| (if (0x48 : Nat).testBit 2 then defaultState.data_mask2 else 0)
                    ||| (if (0x48 : Nat).testBit 3 then defaultState.data_mask3 else 0)
     writesOf (sendTrace defaultState 0x48 true) =
       [hi ||| defaultState.enable_mask, hi, lo ||| defaultState.enable_mask, lo] ∧
     ((hi ||| defaultState.enable_mask) ^^^ hi) &&& defaultState.enable_mask =
       (hi ||| defaultState.enable_mask) ^^^ hi ∧
     ((lo ||| defaultState.enable_mask) ^^^ lo) &&& defaultState.enable_mask =
       (lo ||| defaultState.enable_mask) ^^^ lo) :=
  ⟨by norm_num, C1_send_frame defaultState 0x48 true (by norm_num)⟩

/-! ## Claim C10 -/

/-- C10: clear, home, setCursor, scrollDisplayLeft, scrollDisplayRight,
createChar and write (single byte and buffer) leave every field of the
persistent display state unchanged: entry-mode flags, display-control
flags and backlight level after the call equal their values before. -/
theorem C10_frame_ops (s : LCDState) (col row ch loc : Nat)
    (charmap buf : List Nat) :
    (clear s).1 = s ∧ (home s).1 = s ∧ (setCursor s col row).1 = s ∧
    (scrollDisplayLeft s).1 = s ∧ (scrollDisplayRight s).1 = s ∧
    (createChar s loc charmap).1 = s ∧ (writeChar s ch).1.1 = s ∧
    (writeBuffer s buf).1.1 = s :=
  ⟨rfl, rfl, rfl, rfl, rfl, rfl, rfl, rfl⟩

/-! ## Claim C3 -/

/-- C3 counterexample: mapping rs and enable to the same bit position does
not fail construction; init returns an ordinary state in which the two
masks silently alias to the same value 0x04. -/
theorem C3_conflict_tolerated :
    conflictState.rs_mask = conflictState.enable_mask ∧
    conflictState.rs_mask = 0x04 := by decide

/-- C3 amended: construction performs no conflict validation; whenever rs
and enable are assigned the same bit position the constructor succeeds and
stores identical (aliased) masks for the two signals. -/
theorem C3_no_validation (a p rw d4 d5 d6 d7 bl : Nat) :
    (init a p rw p d4 d5 d6 d7 bl).rs_mask =
      (init a p rw p d4 d5 d6 d7 bl).enable_mask := rfl

/-! ## Claim C5 -/

/-- OR-ing a small constant commutes with the uint8_t truncation. -/
theorem lor_mod_two_pow_eq (a x k : Nat) (ha : a < 2 ^ k) :
    (a ||| x) % 2 ^ k = a ||| (x % 2 ^ k) := by
  apply Nat.eq_of_testBit_eq
  intro i
  by_cases h : i < k
  · simp [Nat.testBit_mod_two_pow, Nat.testBit_lor, h]
  · have hik : k ≤ i := le_of_not_lt h
    have h2 : (2 : Nat) ^ k ≤ 2 ^ i := Nat.pow_le_pow_right (by norm_num) hik
    have hA : a.testBit i = false :=
      Nat.testBit_eq_false_of_lt (lt_of_lt_of_le ha h2)
    have hB : (x % 2 ^ k).testBit i = false :=
      Nat.testBit_eq_false_of_lt (lt_of_lt_of_le (Nat.mod_lt _ (by positivity)) h2)
    simp [Nat.testBit_mod_two_pow, Nat.testBit_lor, h, hA, hB]

/-- C5: for col in byte range and row in 0..3, setCursor sends the single
command byte 0x80 OR (row_offsets[row] + col), with offset table
0x00, 0x40, 0x14, 0x54 and uint8_t truncation of the sum; in particular
setCursor 2 1 sends command 0xC2.  (Rows outside 0..3 index past the table
in the C source, which is undefined behavior, hence the hypothesis.) -/
theorem C5_setCursor_cmd (s : LCDState) (col row : Nat)
    (hrow : row < 4) (hcol : col < 256) :
    (setCursor s col row).2 =
      sendTrace s (0x80 ||| ((row_offsets.getD row 0 + col) % 256)) false ∧
    (setCursor s 2 1).2 = sendTrace s 0xC2 false := by
  constructor
  · show sendTrace s ((0x80 ||| (row_offsets.getD row 0 + col)) % 256) false = _
    congr 1
    rw [show (256 : Nat) = 2 ^ 8 from by norm_num]
    exact lor_mod_two_pow_eq 0x80 (row_offsets.getD row 0 + col) 8 (by norm_num)
  · rfl

/-- Witness for C5 at the default pin mapping, col 2, row 1. -/
theorem C5_setCursor_cmd_w :
    (1 : Nat) < 4 ∧ (2 : Nat) < 256 ∧
    ((setCursor defaultState 2 1).2 =
       sendTrace defaultState (0x80 ||| ((row_offsets.getD 1 0 + 2) % 256))
         false ∧
     (setCursor defaultState 2 1).2 = sendTrace defaultState 0xC2 false) :=
  ⟨by norm_num, by norm_num,
   C5_setCursor_cmd defaultState 2 1 (by norm_num) (by norm_num)⟩

/-! ## Claim C6 -/

/-- C6 counterexample: starting from a display-control value with the
blink bit already set (0x05), blink followed by noBlink does not return
the flags to their pre-toggle value (they end at 0x04). -/
theorem C6_roundtrip_fails_when_blink_set :
    (noBlink (blink blinkOnState).1).1.displaycontrol ≠
      blinkOnState.displaycontrol := by decide

/-- C6 amended: for every starting display-control byte whose blink flag
(bit 0) is clear, blink then noBlink returns the display-control flags to
their pre-toggle value, and the two calls issue exactly the instructions
0x08 OR flags-with-blink and 0x08 OR flags-without-blink (blink
contributing bit value 0x01); entry-mode instructions are likewise
0x04 OR entrymode with direction bit 0x02 and autoscroll bit 0x01. -/
theorem C6_blink_roundtrip (s : LCDState)
    (hlt : s.displaycontrol < 256) (hb : s.displaycontrol.testBit 0 = false) :
    (noBlink (blink s).1).1.displaycontrol = s.displaycontrol ∧
    (blink s).2 = sendTrace s (0x08 ||| (s.displaycontrol ||| 0x01)) false ∧
    (noBlink (blink s).1).2 = sendTrace s (0x08 ||| s.displaycontrol) false ∧
    (leftToRight s).2 = sendTrace s (0x04 ||| (s.entrymode ||| 0x02)) false ∧
    (autoscroll s).2 = sendTrace s (0x04 ||| (s.entrymode ||| 0x01)) false := by
  have key : ∀ d : Nat, d < 256 → d.testBit 0 = false →
      (d ||| 1) &&& 0xFE = d := by
    set_option maxRecDepth 4096 in decide
  have hk := key s.displaycontrol hlt hb
  refine ⟨hk, rfl, ?_, rfl, rfl⟩
  show sendTrace s (0x08 ||| ((s.displaycontrol ||| 0x01) &&& 0xFE)) false = _
  rw [hk]

/-- Witness for C6 at the default power-on display-control value 0x04. -/
theorem C6_blink_roundtrip_w :
    defaultState.displaycontrol < 256 ∧
    defaultState.displaycontrol.testBit 0 = false ∧
    ((noBlink (blink defaultState).1).1.displaycontrol =
       defaultState.displaycontrol ∧
     (blink defaultState).2 =
       sendTrace defaultState
         (0x08 ||| (defaultState.displaycontrol ||| 0x01)) false ∧
     (noBlink (blink defaultState).1).2 =
       sendTrace defaultState (0x08 ||| defaultState.displaycontrol) false ∧
     (leftToRight defaultState).2 =
       sendTrace defaultState
         (0x04 ||| (defaultState.entrymode ||| 0x02)) false ∧
     (autoscroll defaultState).2 =
       sendTrace defaultState
         (0x04 ||| (defaultState.entrymode ||| 0x01)) false) :=
  ⟨by decide, by decide,
   C6_blink_roundtrip defaultState (by decide) (by decide)⟩

/-! ## Claim C7 -/

/-- For pin positions up to 7, the uint8_t mask truncation is lossless. -/
theorem mask_mod_eq (p : Nat) (hp : p ≤ 7) : (1 <<< p) % 256 = 2 ^ p := by
  rw [Nat.shiftLeft_eq, one_mul]
  apply Nat.mod_eq_of_lt
  calc (2 : Nat) ^ p ≤ 2 ^ 7 := Nat.pow_le_pow_right (by norm_num) hp
    _ < 256 := by norm_num

/-- Distinct single-bit masks are disjoint. -/
theorem two_pow_and_two_pow_ne {p q : Nat} (h : p ≠ q) :
    (2 : Nat) ^ p &&& 2 ^ q = 0 := by
  rw [Nat.and_two_pow, Nat.testBit_two_pow_of_ne h]
  simp

/-- C7: for every pin assignment with positions in 0..7, every stored mask
equals 1 shifted by its position; the sentinel position 255 for rw or
backlight yields mask 0; and pairwise-distinct positions yield pairwise
disjoint masks (the AND of any two distinct masks is 0). -/
theorem C7_mask_derivation (st : LCDState) (a rs rw enable d4 d5 d6 d7 bl : Nat)
    (hst : st = init a rs rw enable d4 d5 d6 d7 bl)
    (hrs : rs ≤ 7) (hen : enable ≤ 7) (h4 : d4 ≤ 7) (h5 : d5 ≤ 7)
    (h6 : d6 ≤ 7) (h7 : d7 ≤ 7) :
    st.rs_mask = 1 <<< rs ∧
    st.enable_mask = 1 <<< enable ∧
    st.data_mask0 = 1 <<< d4 ∧ st.data_mask1 = 1 <<< d5 ∧
    st.data_mask2 = 1 <<< d6 ∧ st.data_mask3 = 1 <<< d7 ∧
    (rw ≤ 7 → st.rw_mask = 1 <<< rw) ∧
    (rw = 255 → st.rw_mask = 0) ∧
    (bl ≤ 7 → st.backlight_mask = 1 <<< bl) ∧
    (bl = 255 → st.backlight_mask = 0) ∧
    (rw ≤ 7 → bl ≤ 7 →
      List.Pairwise (fun p q => p ≠ q) [rs, rw, enable, bl, d4, d5, d6, d7] →
      List.Pairwise (fun m1 m2 => m1 &&& m2 = 0)
        [st.rs_mask, st.rw_mask, st.enable_mask, st.backlight_mask,
         st.data_mask0, st.data_mask1, st.data_mask2, st.data_mask3]) := by
  subst hst
  have sh : ∀ p : Nat, p ≤ 7 → (1 <<< p) % 256 = 1 <<< p := by
    intro p hp
    rw [mask_mod_eq p hp, Nat.shiftLeft_eq, one_mul]
  refine ⟨sh rs hrs, sh enable hen, sh d4 h4, sh d5 h5, sh d6 h6, sh d7 h7,
          ?_, ?_, ?_, ?_, ?_⟩
  · intro hrw
    simp only [init]
    rw [if_pos (by omega : rw ≠ 255)]
    exact sh rw hrw
  · intro hrw
    simp [init, hrw]
  · intro hbl
    simp only [init]
    rw [if_pos (by omega : bl ≠ 255)]
    exact sh bl hbl
  · intro hbl
    simp [init, hbl]
  · intro hrw hbl hpw
    have hmask : ([(init a rs rw enable d4 d5 d6 d7 bl).rs_mask,
        (init a rs rw enable d4 d5 d6 d7 bl).rw_mask,
        (init a rs rw enable d4 d5 d6 d7 bl).enable_mask,
        (init a rs rw enable d4 d5 d6 d7 bl).backlight_mask,
        (init a rs rw enable d4 d5 d6 d7 bl).data_mask0,
        (init a rs rw enable d4 d5 d6 d7 bl).data_mask1,
        (init a rs rw enable d4 d5 d6 d7 bl).data_mask2,
        (init a rs rw enable d4 d5 d6 d7 bl).data_mask3] : List Nat) =
        [rs, rw, enable, bl, d4, d5, d6, d7].map (fun p => 2 ^ p) := by
      simp only [init, List.map]
      rw [if_pos (by omega : rw ≠ 255), if_pos (by omega : bl ≠ 255)]
      rw [mask_mod_eq rs hrs, mask_mod_eq rw hrw, mask_mod_eq enable hen,
          mask_mod_eq bl hbl, mask_mod_eq d4 h4, mask_mod_eq d5 h5,
          mask_mod_eq d6 h6, mask_mod_eq d7 h7]
    rw [hmask, List.pairwise_map]
    exact hpw.imp (fun h => two_pow_and_two_pow_ne h)

/-- Witness for C7 at the default pin assignment (all positions 0..7,
pairwise distinct). -/
theorem C7_mask_derivation_w :
    defaultState = init 0x27 0 1 2 4 5 6 7 3 ∧
    (defaultState.rs_mask = 1 <<< 0 ∧
     defaultState.enable_mask = 1 <<< 2 ∧
     defaultState.data_mask0 = 1 <<< 4 ∧ defaultState.data_mask1 = 1 <<< 5 ∧
     defaultState.data_mask2 = 1 <<< 6 ∧ defaultState.data_mask3 = 1 <<< 7 ∧
     ((1 : Nat) ≤ 7 → defaultState.rw_mask = 1 <<< 1) ∧
     ((1 : Nat) = 255 → defaultState.rw_mask = 0) ∧
     ((3 : Nat) ≤ 7 → defaultState.backlight_mask = 1 <<< 3) ∧
     ((3 : Nat) = 255 → defaultState.backlight_mask = 0) ∧
     ((1 : Nat) ≤ 7 → (3 : Nat) ≤ 7 →
       List.Pairwise (fun p q => p ≠ q) [0, 1, 2, 3, 4, 5, 6, 7] →
       List.Pairwise (fun m1 m2 => m1 &&& m2 = 0)
         [defaultState.rs_mask, defaultState.rw_mask,
          defaultState.enable_mask, defaultState.backlight_mask,
          defaultState.data_mask0, defaultState.data_mask1,
          defaultState.data_mask2, defaultState.data_mask3])) :=
  ⟨rfl,
   C7_mask_derivation defaultState 0x27 0 1 2 4 5 6 7 3 rfl
     (by norm_num) (by norm_num) (by norm_num) (by norm_num)
     (by norm_num) (by norm_num)⟩

/-! ## Claim C2 -/

/-- The begin trace, flattened: every component expressed against the
incoming state (none of the fields begin updates are read by the
byte-emitting helpers) and every instruction byte folded to a literal. -/
theorem begin_flat (s : LCDState) (cols lines : Nat) :
    (begin s cols lines).2 =
      [WireEv.beginT s.i2cAddr,
       WireEv.write (if s.backlight > 0 then s.rs_mask ||| s.backlight_mask
                     else s.rs_mask),
       WireEv.endT, WireEv.delayMicroseconds 50000] ++
      sendNibbleTrace s 0x03 false ++ [WireEv.delayMicroseconds 4500] ++
      sendNibbleTrace s 0x03 false ++ [WireEv.delayMicroseconds 200] ++
      sendNibbleTrace s 0x03 false ++ [WireEv.delayMicroseconds 200] ++
      sendNibbleTrace s 0x02 false ++
      sendTrace s (if lines > 1 then 0x28 else 0x20) false ++
      sendTrace s 0x0C false ++
      sendTrace s 0x01 false ++ [WireEv.delayMicroseconds 1600] ++
      sendTrace s 0x06 false := by
  by_cases hl : lines > 1 <;>
    simp [begin, display, clear, leftToRight, write2WireTrace,
          sendTrace, sendNibbleTrace, sendBase, orHighNibble, orLowNibble, hl]

/-- C2 counterexample: at the default pin mapping the first byte begin
writes is 0x01 (the register-select mask), not an all-control-low 0x00;
the settle helper ignores its 0x00 argument and asserts rs. -/
theorem C2_settle_byte_not_all_low :
    (begin defaultState 16 2).2[1]? = some (WireEv.write 0x01) ∧
    WireEv.write 0x01 ≠ WireEv.write 0x00 := by decide

/-- C2 amended: begin cols lines performs, in strict order: one settle
write of the register-select mask (plus the backlight mask when the
stored level is positive - the write helper ignores its all-low 0x00
argument) followed by a 50000 us delay; raw nibble 0x03 three times with
the mandated delays 4500 us, 200 us, 200 us; raw nibble 0x02 committing
to 4-bit mode; function-set 0x20 OR-ed with 0x08 exactly when lines > 1
through the normal two-nibble path; then display-on (0x0C), clear (0x01,
with its settle delay) and left-to-right entry mode (0x06). -/
theorem C2_begin_sequence (s : LCDState) (cols lines : Nat) :
    (begin s cols lines).2 =
      [WireEv.beginT s.i2cAddr,
       WireEv.write (if s.backlight > 0 then s.rs_mask ||| s.backlight_mask
                     else s.rs_mask),
       WireEv.endT, WireEv.delayMicroseconds 50000] ++
      sendNibbleTrace s 0x03 false ++ [WireEv.delayMicroseconds 4500] ++
      sendNibbleTrace s 0x03 false ++ [WireEv.delayMicroseconds 200] ++
      sendNibbleTrace s 0x03 false ++ [WireEv.delayMicroseconds 200] ++
      sendNibbleTrace s 0x02 false ++
      sendTrace s (if lines > 1 then 0x28 else 0x20) false ++
      sendTrace s 0x0C false ++
      sendTrace s 0x01 false ++ [WireEv.delayMicroseconds 1600] ++
      sendTrace s 0x06 false :=
  begin_flat s cols lines

/-! ## Claim C8 -/

/-- The nibble encoders read only the data-mask fields. -/
theorem orHighNibble_backlight (s : LCDState) (b v out : Nat) :
    orHighNibble { s with backlight := b } v out = orHighNibble s v out := rfl

/-- The nibble encoders read only the data-mask fields. -/
theorem orLowNibble_backlight (s : LCDState) (b v out : Nat) :
    orLowNibble { s with backlight := b } v out = orLowNibble s v out := rfl

/-- The base byte of _send depends on the backlight level only through
its on/off sign. -/
theorem sendBase_backlight (s : LCDState) (b : Nat) (d : Bool)
    (h : 0 < b ↔ 0 < s.backlight) :
    sendBase { s with backlight := b } d = sendBase s d := by
  simp [sendBase, h]

/-- _send is insensitive to the backlight magnitude. -/
theorem sendTrace_backlight (s : LCDState) (b v : Nat) (d : Bool)
    (h : 0 < b ↔ 0 < s.backlight) :
    sendTrace { s with backlight := b } v d = sendTrace s v d := by
  simp [sendTrace, sendBase_backlight s b d h, orHighNibble_backlight,
        orLowNibble_backlight]

/-- _sendNibble is insensitive to the backlight magnitude. -/
theorem sendNibbleTrace_backlight (s : LCDState) (b v : Nat) (d : Bool)
    (h : 0 < b ↔ 0 < s.backlight) :
    sendNibbleTrace { s with backlight := b } v d = sendNibbleTrace s v d := by
  simp [sendNibbleTrace, orLowNibble_backlight, h]

/-- _write2Wire is insensitive to the backlight magnitude. -/
theorem write2WireTrace_backlight (s : LCDState) (b x : Nat)
    (h : 0 < b ↔ 0 < s.backlight) :
    write2WireTrace { s with backlight := b } x = write2WireTrace s x := by
  simp [write2WireTrace, h]

/-- The batched-write loop never reads the backlight level. -/
theorem writeLoop_backlight (s : LCDState) (b o : Nat) (buf : List Nat)
    (c : Nat) :
    writeLoop { s with backlight := b } o buf c = writeLoop s o buf c := by
  induction buf generalizing c with
  | nil => rfl
  | cons v rest ih =>
    simp [writeLoop, ih, orHighNibble_backlight, orLowNibble_backlight]

/-- write(buffer,size) is insensitive to the backlight magnitude. -/
theorem writeBuffer_backlight (s : LCDState) (b : Nat) (buf : List Nat)
    (h : 0 < b ↔ 0 < s.backlight) :
    (writeBuffer { s with backlight := b } buf).1.2 =
      (writeBuffer s buf).1.2 := by
  simp [writeBuffer, h, writeLoop_backlight]

/-- begin is insensitive to the backlight magnitude. -/
theorem begin_backlight (s : LCDState) (b cols lines : Nat)
    (h : 0 < b ↔ 0 < s.backlight) :
    (begin { s with backlight := b } cols lines).2 =
      (begin s cols lines).2 := by
  rw [begin_flat, begin_flat]
  have h3 := sendNibbleTrace_backlight s b 0x03 false h
  have h2 := sendNibbleTrace_backlight s b 0x02 false h
  have hf := sendTrace_backlight s b (if lines > 1 then 0x28 else 0x20) false h
  have hc := sendTrace_backlight s b 0x0C false h
  have h1 := sendTrace_backlight s b 0x01 false h
  have h6 := sendTrace_backlight s b 0x06 false h
  simp only [h3, h2, hf, hc, h1, h6]
  simp [h]

/-- C8: only the on/off sign of the stored backlight level is
wire-observable.  For any two levels with the same sign (here an
arbitrary level b replacing the stored one), every operation - the
instruction/data encoder, the raw nibble sender, the expander re-latch,
setBacklight itself, the batched buffer write and the begin sequence -
emits a byte-for-byte identical trace; the magnitude never influences
any emitted byte. -/
theorem C8_backlight_magnitude_unobservable (s : LCDState)
    (b v x br cols lines : Nat) (d : Bool) (buf : List Nat)
    (h : 0 < b ↔ 0 < s.backlight) :
    sendTrace { s with backlight := b } v d = sendTrace s v d ∧
    sendNibbleTrace { s with backlight := b } v d = sendNibbleTrace s v d ∧
    write2WireTrace { s with backlight := b } x = write2WireTrace s x ∧
    (setBacklight { s with backlight := b } br).2 = (setBacklight s br).2 ∧
    (writeBuffer { s with backlight := b } buf).1.2 =
      (writeBuffer s buf).1.2 ∧
    (begin { s with backlight := b } cols lines).2 = (begin s cols lines).2 :=
  ⟨sendTrace_backlight s b v d h,
   sendNibbleTrace_backlight s b v d h,
   write2WireTrace_backlight s b x h,
   rfl,
   writeBuffer_backlight s b buf h,
   begin_backlight s b cols lines h⟩

/-- Witness for C8: stored level 7 replaced by level 2 (both on) at the
default pins, byte 0x48 as data, a 2-byte buffer. -/
theorem C8_backlight_magnitude_unobservable_w :
    ((0 : Nat) < 2 ↔ (0 : Nat) < ({ defaultState with backlight := 7 } : LCDState).backlight) ∧
    (sendTrace { { defaultState with backlight := 7 } with backlight := 2 } 0x48 true =
       sendTrace { defaultState with backlight := 7 } 0x48 true ∧
     sendNibbleTrace { { defaultState with backlight := 7 } with backlight := 2 } 0x48 true =
       sendNibbleTrace { defaultState with backlight := 7 } 0x48 true ∧
     write2WireTrace { { defaultState with backlight := 7 } with backlight := 2 } 0x00 =
       write2WireTrace { defaultState with backlight := 7 } 0x00 ∧
     (setBacklight { { defaultState with backlight := 7 } with backlight := 2 } 5).2 =
       (setBacklight { defaultState with backlight := 7 } 5).2 ∧
     (writeBuffer { { defaultState with backlight := 7 } with backlight := 2 } [0x48, 0x69]).1.2 =
       (writeBuffer { defaultState with backlight := 7 } [0x48, 0x69]).1.2 ∧
     (begin { { defaultState with backlight := 7 } with backlight := 2 } 16 2).2 =
       (begin { defaultState with backlight := 7 } 16 2).2) :=
  ⟨by decide,
   C8_backlight_magnitude_unobservable { defaultState with backlight := 7 }
     2 0x48 0x00 5 16 2 true [0x48, 0x69] (by decide)⟩

/-! ## Claim C9 -/

/-- AND distributes over OR on naturals, bitwise. -/
theorem lor_and_distrib (a b m : Nat) :
    (a ||| b) &&& m = (a &&& m) ||| (b &&& m) := by
  apply Nat.eq_of_testBit_eq
  intro i
  simp only [Nat.testBit_land, Nat.testBit_lor]
  cases a.testBit i <;> cases b.testBit i <;> cases m.testBit i <;> rfl

/-- Bits absent from both operands are absent from their OR. -/
theorem and_eq_zero_lor {a b m : Nat} (ha : a &&& m = 0) (hb : b &&& m = 0) :
    (a ||| b) &&& m = 0 := by
  rw [lor_and_distrib, ha, hb]
  rfl

/-- A conditional contribution keeps a mask clear if the contributed bits
are clear. -/
theorem ite_and_eq_zero (c : Prop) [Decidable c] (a m : Nat)
    (ha : a &&& m = 0) : (if c then a else 0) &&& m = 0 := by
  split
  · exact ha
  · simp

/-- The high-nibble accumulation keeps the rw bits clear. -/
theorem orHighNibble_rw_clear (s : LCDState) (v out : Nat)
    (hout : out &&& s.rw_mask = 0) (h : rwMasksDisjoint s) :
    orHighNibble s v out &&& s.rw_mask = 0 := by
  obtain ⟨-, -, -, h0, h1, h2, h3⟩ := h
  rw [orHighNibble_eq]
  exact and_eq_zero_lor
    (and_eq_zero_lor
      (and_eq_zero_lor (and_eq_zero_lor hout (ite_and_eq_zero _ _ _ h0))
        (ite_and_eq_zero _ _ _ h1))
      (ite_and_eq_zero _ _ _ h2))
    (ite_and_eq_zero _ _ _ h3)

/-- The low-nibble accumulation keeps the rw bits clear. -/
theorem orLowNibble_rw_clear (s : LCDState) (v out : Nat)
    (hout : out &&& s.rw_mask = 0) (h : rwMasksDisjoint s) :
    orLowNibble s v out &&& s.rw_mask = 0 := by
  obtain ⟨-, -, -, h0, h1, h2, h3⟩ := h
  rw [orLowNibble_eq]
  exact and_eq_zero_lor
    (and_eq_zero_lor
      (and_eq_zero_lor (and_eq_zero_lor hout (ite_and_eq_zero _ _ _ h0))
        (ite_and_eq_zero _ _ _ h1))
      (ite_and_eq_zero _ _ _ h2))
    (ite_and_eq_zero _ _ _ h3)

/-- The base byte of _send keeps the rw bits clear. -/
theorem sendBase_rw_clear (s : LCDState) (d : Bool) (h : rwMasksDisjoint s) :
    sendBase s d &&& s.rw_mask = 0 := by
  obtain ⟨hrs, -, hbl, -⟩ := h
  rw [sendBase_eq]
  exact and_eq_zero_lor (ite_and_eq_zero _ _ _ hbl) (ite_and_eq_zero _ _ _ hrs)

/-- Every byte of a _send transaction keeps the rw bits clear. -/
theorem sendTrace_rw_clear (s : LCDState) (v : Nat) (d : Bool)
    (h : rwMasksDisjoint s) :
    clearAll s.rw_mask (sendTrace s v d) = true := by
  have hen := h.2.1
  have hhi := orHighNibble_rw_clear s v _ (sendBase_rw_clear s d h) h
  have hlo := orLowNibble_rw_clear s v _ (sendBase_rw_clear s d h) h
  simp [sendTrace, clearAll, evMaskClear, hhi, hlo,
        and_eq_zero_lor hhi hen, and_eq_zero_lor hlo hen]

/-- Every byte of a _sendNibble transaction keeps the rw bits clear. -/
theorem sendNibbleTrace_rw_clear (s : LCDState) (v : Nat) (d : Bool)
    (h : rwMasksDisjoint s) :
    clearAll s.rw_mask (sendNibbleTrace s v d) = true := by
  have hrs := h.1
  have hen := h.2.1
  have hbl := h.2.2.1
  have hbase : ((if s.backlight > 0 then
      (if d then (0 : Nat) ||| s.rs_mask else 0) ||| s.backlight_mask
    else if d then (0 : Nat) ||| s.rs_mask else 0)) &&& s.rw_mask = 0 := by
    have hd : (if d then (0 : Nat) ||| s.rs_mask else 0) &&& s.rw_mask = 0 := by
      have h00 : (0 : Nat) &&& s.rw_mask = 0 := by simp
      cases d
      · simp
      · simpa using and_eq_zero_lor h00 hrs
    split
    · exact and_eq_zero_lor hd hbl
    · exact hd
  have hout := orLowNibble_rw_clear s v _ hbase h
  have hout2 := and_eq_zero_lor hout hen
  simp only [Nat.zero_or] at hout hout2
  simp [sendNibbleTrace, clearAll, evMaskClear, hout, hout2]

/-- The settle/backlight re-latch byte keeps the rw bits clear. -/
theorem write2WireTrace_rw_clear (s : LCDState) (x : Nat)
    (h : rwMasksDisjoint s) :
    clearAll s.rw_mask (write2WireTrace s x) = true := by
  obtain ⟨hrs, -, hbl, -⟩ := h
  have hb : ((if s.backlight > 0 then s.rs_mask ||| s.backlight_mask
      else s.rs_mask)) &&& s.rw_mask = 0 := by
    split
    · exact and_eq_zero_lor hrs hbl
    · exact hrs
  simp [write2WireTrace, clearAll, evMaskClear, hb]

/-- Every byte emitted by the batched write loop keeps the rw bits clear. -/
theorem writeLoop_rw_clear (s : LCDState) (o : Nat) (buf : List Nat) (c : Nat)
    (ho : o &&& s.rw_mask = 0) (h : rwMasksDisjoint s) :
    clearAll s.rw_mask (writeLoop s o buf c) = true := by
  have hen := h.2.1
  induction buf generalizing c with
  | nil =>
    simp only [writeLoop]
    split <;> rfl
  | cons v rest ih =>
    have hhi := orHighNibble_rw_clear s v o ho h
    have hlo := orLowNibble_rw_clear s v o ho h
    simp only [clearAll] at ih ⊢
    simp only [writeLoop]
    split <;> split <;>
      simp [List.all_append, evMaskClear, hhi, hlo,
            and_eq_zero_lor hhi hen, and_eq_zero_lor hlo hen, ih]

/-- The settle byte written by _write2Wire keeps the rw bits clear. -/
theorem settle_byte_rw_clear (s : LCDState) (h : rwMasksDisjoint s) :
    ((if s.backlight > 0 then s.rs_mask ||| s.backlight_mask
      else s.rs_mask)) &&& s.rw_mask = 0 := by
  obtain ⟨hrs, -, hbl, -⟩ := h
  split
  · exact and_eq_zero_lor hrs hbl
  · exact hrs

/-- Every byte of the begin sequence keeps the rw bits clear. -/
theorem begin_rw_clear (s : LCDState) (cols lines : Nat)
    (h : rwMasksDisjoint s) :
    clearAll s.rw_mask ((begin s cols lines).2) = true := by
  have hn3 := sendNibbleTrace_rw_clear s 0x03 false h
  have hn2 := sendNibbleTrace_rw_clear s 0x02 false h
  have hf := sendTrace_rw_clear s (if lines > 1 then 0x28 else 0x20) false h
  have hc := sendTrace_rw_clear s 0x0C false h
  have h1 := sendTrace_rw_clear s 0x01 false h
  have h6 := sendTrace_rw_clear s 0x06 false h
  have hb := settle_byte_rw_clear s h
  rw [begin_flat]
  simp only [clearAll] at hn3 hn2 hf hc h1 h6 ⊢
  simp [List.all_append, evMaskClear, hn3, hn2, hf, hc, h1, h6, hb]

/-- C9: the read/write signal is never asserted.  Under the precondition
that the rw mask bits do not overlap any other signal mask (distinct pin
positions), every output byte of every operation - instruction/data
encoding, raw nibble sends, the settle/backlight re-latch, setBacklight,
batched buffer writes and the whole begin sequence - has the rw mask bits
clear: the driver operates write-only. -/
theorem C9_rw_never_asserted (s : LCDState) (v br cols lines : Nat)
    (d : Bool) (buf : List Nat) (h : rwMasksDisjoint s) :
    clearAll s.rw_mask (sendTrace s v d) = true ∧
    clearAll s.rw_mask (sendNibbleTrace s v d) = true ∧
    clearAll s.rw_mask (write2WireTrace s v) = true ∧
    clearAll s.rw_mask ((setBacklight s br).2) = true ∧
    clearAll s.rw_mask ((writeBuffer s buf).1.2) = true ∧
    clearAll s.rw_mask ((begin s cols lines).2) = true := by
  refine ⟨sendTrace_rw_clear s v d h, sendNibbleTrace_rw_clear s v d h,
          write2WireTrace_rw_clear s v h, ?_, ?_,
          begin_rw_clear s cols lines h⟩
  · exact write2WireTrace_rw_clear { s with backlight := br } 0x00 h
  · exact writeLoop_rw_clear s _ buf 0 (settle_byte_rw_clear s h) h

/-- Witness for C9 at the default pin mapping (rw mapped to bit 1,
disjoint from all other masks). -/
theorem C9_rw_never_asserted_w :
    rwMasksDisjoint defaultState ∧
    (clearAll defaultState.rw_mask (sendTrace defaultState 0x48 true) = true ∧
     clearAll defaultState.rw_mask
       (sendNibbleTrace defaultState 0x48 true) = true ∧
     clearAll defaultState.rw_mask (write2WireTrace defaultState 0x48) = true ∧
     clearAll defaultState.rw_mask ((setBacklight defaultState 5).2) = true ∧
     clearAll defaultState.rw_mask
       ((writeBuffer defaultState [0x48, 0x69]).1.2) = true ∧
     clearAll defaultState.rw_mask ((begin defaultState 16 2).2) = true) :=
  ⟨by simp only [rwMasksDisjoint]; decide,
   C9_rw_never_asserted defaultState 0x48 5 16 2 true [0x48, 0x69]
     (by simp only [rwMasksDisjoint]; decide)⟩

/-! ## Claim C4 -/

theorem writesOf_nil : writesOf [] = [] := rfl

theorem writesOf_beginT (a : Nat) (t : List WireEv) :
    writesOf (WireEv.beginT a :: t) = writesOf t := rfl

theorem writesOf_write (b : Nat) (t : List WireEv) :
    writesOf (WireEv.write b :: t) = b :: writesOf t := rfl

theorem writesOf_endT (t : List WireEv) :
    writesOf (WireEv.endT :: t) = writesOf t := rfl

theorem writesOf_delay (u : Nat) (t : List WireEv) :
    writesOf (WireEv.delayMicroseconds u :: t) = writesOf t := rfl

theorem writesOf_append (a b : List WireEv) :
    writesOf (a ++ b) = writesOf a ++ writesOf b := by
  simp [writesOf]

theorem countEndT_nil : countEndT [] = 0 := rfl

theorem countEndT_beginT (a : Nat) (t : List WireEv) :
    countEndT (WireEv.beginT a :: t) = countEndT t := by
  simp [countEndT, List.countP_cons]

theorem countEndT_write (b : Nat) (t : List WireEv) :
    countEndT (WireEv.write b :: t) = countEndT t := by
  simp [countEndT, List.countP_cons]

theorem countEndT_endT (t : List WireEv) :
    countEndT (WireEv.endT :: t) = countEndT t + 1 := by
  simp [countEndT, List.countP_cons]

theorem countEndT_delay (u : Nat) (t : List WireEv) :
    countEndT (WireEv.delayMicroseconds u :: t) = countEndT t := by
  simp [countEndT, List.countP_cons]

theorem countEndT_append (a b : List WireEv) :
    countEndT (a ++ b) = countEndT a + countEndT b := by
  simp [countEndT, List.countP_append]

theorem txnWriteCounts_beginT (a : Nat) (t : List WireEv) (acc : Nat) :
    txnWriteCounts (WireEv.beginT a :: t) acc = txnWriteCounts t 0 := rfl

theorem txnWriteCounts_write (b : Nat) (t : List WireEv) (acc : Nat) :
    txnWriteCounts (WireEv.write b :: t) acc = txnWriteCounts t (acc + 1) :=
  rfl

theorem txnWriteCounts_endT (t : List WireEv) (acc : Nat) :
    txnWriteCounts (WireEv.endT :: t) acc = acc :: txnWriteCounts t 0 := rfl

theorem txnWriteCounts_delay (u : Nat) (t : List WireEv) (acc : Nat) :
    txnWriteCounts (WireEv.delayMicroseconds u :: t) acc =
      txnWriteCounts t acc := rfl

/-- The loop emits exactly 4 data bytes per input byte. -/
theorem writeLoop_writes_length (s : LCDState) (o : Nat) :
    ∀ (buf : List Nat) (c : Nat),
      (writesOf (writeLoop s o buf c)).length = 4 * buf.length := by
  intro buf
  induction buf with
  | nil =>
    intro c
    simp only [writeLoop]
    split <;> rfl
  | cons v rest ih =>
    intro c
    simp only [writeLoop]
    split <;> split <;>
      simp [writesOf_append, writesOf_beginT, writesOf_write, writesOf_endT,
            writesOf_nil, ih] <;> omega

/-- A nonempty buffer, or a pending partial batch, always produces at
least one flushed transaction. -/
theorem writeLoop_one_txn (s : LCDState) (o : Nat) :
    ∀ (buf : List Nat) (c : Nat), buf ≠ [] ∨ c ≠ 0 →
      1 ≤ countEndT (writeLoop s o buf c) := by
  intro buf
  induction buf with
  | nil =>
    intro c hc
    have hc0 : c ≠ 0 := by
      rcases hc with hl | hr
      · exact absurd rfl hl
      · exact hr
    simp [writeLoop, hc0, countEndT_endT, countEndT_nil]
  | cons v rest ih =>
    intro c _
    simp only [writeLoop]
    split <;> split <;>
      simp [countEndT_append, countEndT_beginT, countEndT_write,
            countEndT_endT, countEndT_nil] <;>
      first
        | omega
        | exact ih (c + 4) (Or.inr (by omega))

/-- Once the queued plus remaining bytes pass the frame bound, the loop
flushes at least twice. -/
theorem writeLoop_two_txns (s : LCDState) (o : Nat) :
    ∀ (buf : List Nat) (c : Nat), c ≤ 24 → c % 4 = 0 →
      32 ≤ c + 4 * buf.length →
      2 ≤ countEndT (writeLoop s o buf c) := by
  intro buf
  induction buf with
  | nil =>
    intro c hc _ hlen
    simp at hlen
    omega
  | cons v rest ih =>
    intro c hc hm hlen
    simp only [writeLoop]
    split <;> split <;>
      simp [countEndT_append, countEndT_beginT, countEndT_write,
            countEndT_endT, countEndT_nil] <;>
      first
        | (have hr : rest ≠ [] := by
             intro he
             rw [he] at hlen
             simp at hlen
             omega
           have := writeLoop_one_txn s o rest 0 (Or.inl hr)
           omega)
        | (apply ih (c + 4) (by simp [BUFFER_LENGTH] at *; omega) (by omega)
           simp at hlen ⊢
           omega)

/-- Parsing the loop trace with the queued byte count as the open-batch
accumulator, every completed transaction holds at most BUFFER_LENGTH
written bytes. -/
theorem txnWriteCounts_nil (acc : Nat) : txnWriteCounts [] acc = [] := rfl

theorem writeLoop_txn_bound (s : LCDState) (o : Nat) :
    ∀ (buf : List Nat) (c : Nat), c ≤ 24 → c % 4 = 0 →
      ∀ n ∈ txnWriteCounts (writeLoop s o buf c) c, n ≤ BUFFER_LENGTH := by
  intro buf
  induction buf with
  | nil =>
    intro c hc _ n hn
    by_cases h0 : c = 0
    · simp [writeLoop, h0, txnWriteCounts_nil] at hn
    · simp [writeLoop, h0, txnWriteCounts_endT, txnWriteCounts_nil,
            List.mem_cons] at hn
      simp [hn, BUFFER_LENGTH]
      omega
  | cons v rest ih =>
    intro c hc hm n hn
    by_cases h0 : c = 0 <;> by_cases hfl : BUFFER_LENGTH - 4 ≤ c + 4
    · exfalso
      rw [h0] at hfl
      simp [BUFFER_LENGTH] at hfl
    · simp [writeLoop, h0, hfl, txnWriteCounts_beginT,
            txnWriteCounts_write] at hn
      have hn4 : n ∈ txnWriteCounts (writeLoop s o rest 4) 4 := hn
      exact ih 4 (by omega) (by omega) n hn4
    · simp [writeLoop, h0, hfl, txnWriteCounts_write, txnWriteCounts_endT,
            List.mem_cons] at hn
      rcases hn with hn | hn
      · simp only [BUFFER_LENGTH] at hfl ⊢
        omega
      · exact ih 0 (by omega) (by omega) n hn
    · simp [writeLoop, h0, hfl, txnWriteCounts_write] at hn
      have hfl24 : c + 4 ≤ 24 := by
        simp only [BUFFER_LENGTH] at hfl
        omega
      have hn4 : n ∈ txnWriteCounts (writeLoop s o rest (c + 4))
          (c + 1 + 1 + 1 + 1) := hn
      rw [show c + 1 + 1 + 1 + 1 = c + 4 from by omega] at hn4
      exact ih (c + 4) hfl24 (by omega) n hn4

/-- The loop trace of a nonempty buffer (or pending batch) is nonempty. -/
theorem writeLoop_ne_nil (s : LCDState) (o : Nat) (buf : List Nat) (c : Nat)
    (h : buf ≠ [] ∨ c ≠ 0) : writeLoop s o buf c ≠ [] := by
  cases buf with
  | nil =>
    have hc : c ≠ 0 := by
      rcases h with hl | hr
      · exact absurd rfl hl
      · exact hr
    simp [writeLoop, hc]
  | cons v rest => simp [writeLoop]

/-- The loop always flushes at the end: its trace ends with an
end-transmission event. -/
theorem writeLoop_last_endT (s : LCDState) (o : Nat) :
    ∀ (buf : List Nat) (c : Nat), buf ≠ [] ∨ c ≠ 0 →
      (writeLoop s o buf c).getLast? = some WireEv.endT := by
  intro buf
  induction buf with
  | nil =>
    intro c hc
    have hc0 : c ≠ 0 := by
      rcases hc with hl | hr
      · exact absurd rfl hl
      · exact hr
    simp [writeLoop, hc0]
  | cons v rest ih =>
    intro c _
    simp only [writeLoop]
    by_cases hfl : BUFFER_LENGTH - 4 ≤ c + 4
    · rw [if_pos hfl]
      by_cases hr : rest = []
      · subst hr
        rw [List.getLast?_append_of_ne_nil _ (by simp)]
        simp [writeLoop]
      · have hne : writeLoop s o rest 0 ≠ [] :=
          writeLoop_ne_nil s o rest 0 (Or.inl hr)
        rw [List.getLast?_append_of_ne_nil _ (by simp),
            show (WireEv.endT :: writeLoop s o rest 0) =
              [WireEv.endT] ++ writeLoop s o rest 0 from rfl,
            List.getLast?_append_of_ne_nil _ hne]
        exact ih 0 (Or.inl hr)
    · rw [if_neg hfl]
      by_cases hr : rest = []
      · subst hr
        have he : writeLoop s o [] (c + 4) = [WireEv.endT] := by
          simp [writeLoop]
        rw [he, List.getLast?_append_of_ne_nil _ (by simp)]
        rfl
      · have hne : writeLoop s o rest (c + 4) ≠ [] :=
          writeLoop_ne_nil s o rest (c + 4) (Or.inl hr)
        rw [List.getLast?_append_of_ne_nil _ hne]
        exact ih (c + 4) (Or.inl hr)

/-- C4: when 4 times the buffer length exceeds the transport frame bound
BUFFER_LENGTH, write(buffer,size) returns size, emits exactly 4 bytes per
buffer byte in total, splits the output over more than one transaction
(flushing whenever the queued count reaches the bound minus 4), never
lets a single transaction exceed the bound, and always flushes the final
partial batch (the trace ends with an end-transmission). -/
theorem C4_write_batching (s : LCDState) (buf : List Nat)
    (h : BUFFER_LENGTH < 4 * buf.length) :
    (writeBuffer s buf).2 = buf.length ∧
    (writesOf (writeBuffer s buf).1.2).length = 4 * buf.length ∧
    2 ≤ countEndT (writeBuffer s buf).1.2 ∧
    (∀ n ∈ txnWriteCounts ((writeBuffer s buf).1.2) 0, n ≤ BUFFER_LENGTH) ∧
    ((writeBuffer s buf).1.2).getLast? = some WireEv.endT := by
  have e : (writeBuffer s buf).1.2 =
      writeLoop s (if s.backlight > 0 then s.rs_mask ||| s.backlight_mask
        else s.rs_mask) buf 0 := rfl
  rw [e]
  refine ⟨rfl, writeLoop_writes_length s _ buf 0, ?_, ?_, ?_⟩
  · apply writeLoop_two_txns s _ buf 0 (by omega) (by omega)
    simp only [BUFFER_LENGTH] at h ⊢
    omega
  · exact writeLoop_txn_bound s _ buf 0 (by omega) (by omega)
  · apply writeLoop_last_endT s _ buf 0
    left
    intro he
    rw [he] at h
    simp [BUFFER_LENGTH] at h

/-- Witness for C4: a 9-byte buffer (36 encoded bytes, above the 32-byte
frame bound) at the default pin mapping. -/
theorem C4_write_batching_w :
    BUFFER_LENGTH < 4 * ([1, 2, 3, 4, 5, 6, 7, 8, 9] : List Nat).length ∧
    ((writeBuffer defaultState [1, 2, 3, 4, 5, 6, 7, 8, 9]).2 =
       ([1, 2, 3, 4, 5, 6, 7, 8, 9] : List Nat).length ∧
     (writesOf (writeBuffer defaultState
        [1, 2, 3, 4, 5, 6, 7, 8, 9]).1.2).length =
       4 * ([1, 2, 3, 4, 5, 6, 7, 8, 9] : List Nat).length ∧
     2 ≤ countEndT (writeBuffer defaultState [1, 2, 3, 4, 5, 6, 7, 8, 9]).1.2 ∧
     (∀ n ∈ txnWriteCounts
         ((writeBuffer defaultState [1, 2, 3, 4, 5, 6, 7, 8, 9]).1.2) 0,
       n ≤ BUFFER_LENGTH) ∧
     ((writeBuffer defaultState [1, 2, 3, 4, 5, 6, 7, 8, 9]).1.2).getLast? =
       some WireEv.endT) :=
  ⟨by decide,
   C4_write_batching defaultState [1, 2, 3, 4, 5, 6, 7, 8, 9] (by decide)⟩

end LCD
